import Mathlib

/-!
Verification of the fitness-assessment pipeline of the `glyph` damped-oscillator
example (`src/examples/damped_oscillator.py`).

Numeric values are modelled by `EVal := Option ℝ`, where `none` plays the role of
IEEE NaN and `some r` a finite real.  Arithmetic propagates NaN exactly as IEEE
arithmetic does on finite operands; division by zero and square root / logarithm
of values outside their real domain are folded into the NaN element (the code
never distinguishes Inf from NaN downstream: both are non-real results of a
degenerate candidate, and the only consumer, `replace_nan`, tests for NaN).
-/

/-- A numeric value: `none` models IEEE NaN, `some r` a finite real. -/
abbrev EVal := Option ℝ

def eadd : EVal → EVal → EVal
  | some a, some b => some (a + b)
  | _, _ => none

def esub : EVal → EVal → EVal
  | some a, some b => some (a - b)
  | _, _ => none

def emul : EVal → EVal → EVal
  | some a, some b => some (a * b)
  | _, _ => none

def eneg : EVal → EVal
  | some a => some (-a)
  | none => none

/-- Multiplication by a (finite) real scalar; `r * NaN = NaN` as in IEEE. -/
def smul (r : ℝ) : EVal → EVal
  | some a => some (r * a)
  | none => none

noncomputable def ediv : EVal → EVal → EVal
  | some a, some b => if b = 0 then none else some (a / b)
  | _, _ => none

noncomputable def esqrt : EVal → EVal
  | some a => if a < 0 then none else some (Real.sqrt a)
  | none => none

/-- Squaring, as it appears in `y[i, :]**2`. -/
def esq (v : EVal) : EVal := emul v v

noncomputable def esin : EVal → EVal
  | some a => some (Real.sin a)
  | none => none

noncomputable def ecos : EVal → EVal
  | some a => some (Real.cos a)
  | none => none

noncomputable def eexp : EVal → EVal
  | some a => some (Real.exp a)
  | none => none

noncomputable def elog : EVal → EVal
  | some a => if a ≤ 0 then none else some (Real.log a)
  | none => none

theorem eadd_none_right (x : EVal) : eadd x none = none := by cases x <;> rfl

theorem eadd_none_left (x : EVal) : eadd none x = none := rfl

theorem emul_none_right (x : EVal) : emul x none = none := by cases x <;> rfl

theorem esub_none_right (x : EVal) : esub x none = none := by cases x <;> rfl

theorem smul_none (r : ℝ) : smul r none = none := rfl

theorem ediv_none_left (x : EVal) : ediv none x = none := rfl

theorem emul_none_left (x : EVal) : emul none x = none := rfl

namespace Numeric

/-- Modelled from the spec: `glyph.utils.numeric.rmse` is not under `src/`.
§4.6: `rmse(target, actual) = sqrt((target-actual)²)` for scalar comparison. -/
noncomputable def rmse (target actual : EVal) : EVal :=
  esqrt (esq (esub target actual))

end Numeric

/-- Modelled from the spec: `glyph.assessment.replace_nan` is not under `src/`.
§4.6: maps a NaN element to the configured sentinel `rep`, leaves others
unchanged.  This is the elementwise mapping. -/
def replaceNanVal (rep : ℝ) (v : EVal) : EVal := some (v.getD rep)

/-- Modelled from the spec: `glyph.assessment.replace_nan` is not under `src/`.
§4.6: `replace_nan(values: tuple<float>) -> tuple<float>` maps each NaN element
to a fixed sentinel, leaves others unchanged, preserves tuple order and length. -/
def replace_nan (rep : ℝ) (xs : List EVal) : List EVal := xs.map (replaceNanVal rep)

/-- C8: `replace_nan` is idempotent; it maps each NaN element to the sentinel,
leaves every non-NaN element unchanged, and preserves the tuple's order and
length (elementwise characterisation via indexed lookup). -/
theorem replace_nan_props (rep : ℝ) (xs : List EVal) :
    replace_nan rep (replace_nan rep xs) = replace_nan rep xs ∧
    (replace_nan rep xs).length = xs.length ∧
    (∀ i : ℕ, (replace_nan rep xs)[i]? = (xs[i]?).map (replaceNanVal rep)) ∧
    replaceNanVal rep none = some rep ∧
    (∀ r : ℝ, replaceNanVal rep (some r) = some r) := by
  refine ⟨?_, ?_, ?_, rfl, fun r => rfl⟩
  · simp [replace_nan, replaceNanVal]
  · simp [replace_nan]
  · intro i
    simp [replace_nan]

/-- C9: the scalar `rmse` satisfies `rmse(a, a) = 0`, is symmetric, and equals
`sqrt((target - actual)²)` on finite inputs. -/
theorem rmse_refl_symm_sqrt (a b : ℝ) :
    Numeric.rmse (some a) (some a) = some 0 ∧
    Numeric.rmse (some a) (some b) = Numeric.rmse (some b) (some a) ∧
    Numeric.rmse (some a) (some b) = some (Real.sqrt ((a - b) ^ 2)) := by
  have hsq : ∀ x y : ℝ, Numeric.rmse (some x) (some y) = some (Real.sqrt ((x - y) ^ 2)) := by
    intro x y
    have hnn : ¬ (x - y) * (x - y) < 0 := not_lt.mpr (mul_self_nonneg _)
    simp [Numeric.rmse, esq, esub, emul, esqrt, hnn, sq]
  refine ⟨?_, ?_, hsq a b⟩
  · simp [hsq a a]
  · rw [hsq a b, hsq b a]
    have h : (a - b) ^ 2 = (b - a) ^ 2 := by ring
    rw [h]

/-!
## Candidate expressions and their phenotype

Modelled from the spec: `glyph.gp.sympy_primitive_set` / `gp.sympy_phenotype`
are not under `src/`.  §4.1 and §9: a closed sum of node kinds (binary op,
unary op, variable reference, constant reference), compiled by structural
recursion into a numeric function of the state `(y_0, y_1)` and the constant
vector.  The node kinds follow the primitive categories declared at
`src/examples/damped_oscillator.py:21` (algebraic, trigonometric, exponential)
with arguments `y_0, y_1` and constants `['c']`.
-/

inductive Expr : Type
  | Y0 : Expr
  | Y1 : Expr
  | C : ℕ → Expr
  | Neg : Expr → Expr
  | Add : Expr → Expr → Expr
  | Sub : Expr → Expr → Expr
  | Mul : Expr → Expr → Expr
  | Div : Expr → Expr → Expr
  | Sin : Expr → Expr
  | Cos : Expr → Expr
  | Exp : Expr → Expr
  | Log : Expr → Expr

/-- Modelled from the spec: the Phenotype Compiler (§4.1), structural recursion
over the node kinds.  A constant reference reads the constant vector. -/
noncomputable def evalExpr : Expr → List ℝ → EVal × EVal → EVal
  | .Y0, _, y => y.1
  | .Y1, _, y => y.2
  | .C i, cs, _ => some (cs.getD i 0)
  | .Neg e, cs, y => eneg (evalExpr e cs y)
  | .Add a b, cs, y => eadd (evalExpr a cs y) (evalExpr b cs y)
  | .Sub a b, cs, y => esub (evalExpr a cs y) (evalExpr b cs y)
  | .Mul a b, cs, y => emul (evalExpr a cs y) (evalExpr b cs y)
  | .Div a b, cs, y => ediv (evalExpr a cs y) (evalExpr b cs y)
  | .Sin e, cs, y => esin (evalExpr e cs y)
  | .Cos e, cs, y => ecos (evalExpr e cs y)
  | .Exp e, cs, y => eexp (evalExpr e cs y)
  | .Log e, cs, y => elog (evalExpr e cs y)

/-- Node count of an expression tree: `len(individual)` on the genotype. -/
def exprSize : Expr → ℕ
  | .Y0 => 1
  | .Y1 => 1
  | .C _ => 1
  | .Neg e => 1 + exprSize e
  | .Add a b => 1 + exprSize a + exprSize b
  | .Sub a b => 1 + exprSize a + exprSize b
  | .Mul a b => 1 + exprSize a + exprSize b
  | .Div a b => 1 + exprSize a + exprSize b
  | .Sin e => 1 + exprSize e
  | .Cos e => 1 + exprSize e
  | .Exp e => 1 + exprSize e
  | .Log e => 1 + exprSize e

/-- The declared constant names of the primitive set
(`src/examples/damped_oscillator.py:22`: `constants=['c']`). -/
def psetConstants : List String := ["c"]

/-- The number of free constants of a candidate: every `Individual` shares the
same primitive set, so this is `len(pset.constants)`. -/
def numConsts (_ : Expr) : ℕ := psetConstants.length

/-!
## Dynamical system and trajectory integration
-/

/-- Modelled from the spec: `glyph.control_problem.anharmonic_oscillator` is not
under `src/`.  §4.2: `dy0 = y1`, `dy1 = -omega²·y0 - c·y1 + k·actuator(y0, y1)`,
a pure function of state, actuator output and parameters. -/
noncomputable def anharmonic_oscillator (f : EVal × EVal → EVal) (omega c k : ℝ)
    (y : EVal × EVal) : EVal × EVal :=
  (y.2, eadd (esub (smul (-(omega ^ 2)) y.1) (smul c y.2)) (smul k (f y)))

/-- Modelled from the spec: `glyph.utils.numeric.integrate` is not under
`src/`.  §4.3 allows a fixed-step scheme; we use the explicit Euler scheme on
the given time grid.  NaN in a derivative or state propagates through the
remaining states, so a divergent candidate yields a NaN-poisoned trajectory
(§4.3's `IntegrationDiverged` path). -/
noncomputable def eulerSteps (dy : EVal × EVal → EVal × EVal) :
    EVal × EVal → ℝ → List ℝ → List (EVal × EVal)
  | _, _, [] => []
  | y, t, t1 :: ts =>
    (eadd y.1 (smul (t1 - t) (dy y).1), eadd y.2 (smul (t1 - t) (dy y).2)) ::
      eulerSteps dy (eadd y.1 (smul (t1 - t) (dy y).1), eadd y.2 (smul (t1 - t) (dy y).2)) t1 ts

/-- Modelled from the spec: the Trajectory Integrator (§4.3).  One state per
grid point, the first grid point carrying the initial state. -/
noncomputable def integrate (dy : EVal × EVal → EVal × EVal) (yinit : EVal × EVal) :
    List ℝ → List (EVal × EVal)
  | [] => []
  | t :: ts => yinit :: eulerSteps dy yinit t ts

theorem eulerSteps_length (dy : EVal × EVal → EVal × EVal) (y : EVal × EVal) (t : ℝ)
    (xs : List ℝ) : (eulerSteps dy y t xs).length = xs.length := by
  induction xs generalizing y t with
  | nil => rfl
  | cons t1 ts ih => simp [eulerSteps, ih]

theorem integrate_length (dy : EVal × EVal → EVal × EVal) (yinit : EVal × EVal)
    (xs : List ℝ) : (integrate dy yinit xs).length = xs.length := by
  cases xs with
  | nil => rfl
  | cons t ts => simp [integrate, eulerSteps_length]

/-!
## Setup values (`AssessmentRunner.setup`, `src/examples/damped_oscillator.py:32`)
-/

/-- `self.x = numpy.linspace(0.0, 50 * 2π, 2000)`: grid point `i` is
`i * (50·2π / 1999)`. -/
noncomputable def setupX : List ℝ :=
  List.map (fun i : ℕ => (i : ℝ) * (50 * (2 * Real.pi) / 1999)) (List.range 2000)

/-- `self.NT = self.nperiods * 2π / self.omega = 50 * 2π / 1`. -/
noncomputable def setupNT : ℝ := 50 * (2 * Real.pi) / 1

/-- `self.yinit = numpy.array([0.0, 1.0])`. -/
def setupYinit : EVal × EVal := (some 0, some 1)

theorem setupX_length : setupX.length = 2000 := by
  rw [setupX, List.length_map, List.length_range]

/-!
## Scoring (`AssessmentRunner.rmse`, `src/examples/damped_oscillator.py:54`)
-/

/-- `scipy.trapz(y, x)`: the composite trapezoidal rule
`Σ (x[i+1]-x[i]) · (y[i]+y[i+1]) / 2`, with NaN propagation over `EVal`. -/
noncomputable def trapz : List EVal → List ℝ → EVal
  | y1 :: y2 :: ys, x1 :: x2 :: xs =>
    eadd (smul ((x2 - x1) / 2) (eadd y1 y2)) (trapz (y2 :: ys) (x2 :: xs))
  | _, _ => some 0
termination_by ys _ => ys.length

/-- `ampl_ = numpy.sqrt(scipy.trapz(y[0, :]**2, x=self.x) * 2.0 / self.NT)`
(`src/examples/damped_oscillator.py:57`). -/
noncomputable def ampl_meas (y0 : List EVal) (xs : List ℝ) (NT : ℝ) : EVal :=
  esqrt (ediv (emul (trapz (y0.map esq) xs) (some 2)) (some NT))

/-- `omega_ = numpy.sqrt(scipy.trapz(y[1, :]**2, x=self.x) * 2.0 / (self.NT * ampl_**2))`
(`src/examples/damped_oscillator.py:59`). -/
noncomputable def omega_meas (y1 : List EVal) (xs : List ℝ) (NT : ℝ) (a : EVal) : EVal :=
  esqrt (ediv (emul (trapz (y1.map esq) xs) (some 2)) (emul (some NT) (esq a)))

/-- The frequency measure as the spec's words state it (refinement target for
C2): `sqrt((2/NT) * ∫ y_1² dt)`, with no amplitude normalisation. -/
noncomputable def omega_specMeas (y1 : List EVal) (xs : List ℝ) (NT : ℝ) : EVal :=
  esqrt (ediv (emul (trapz (y1.map esq) xs) (some 2)) (some NT))

namespace AssessmentRunner

/-- `AssessmentRunner.trajectory` (`src/examples/damped_oscillator.py:67`):
integrate the anharmonic oscillator closed over the candidate's phenotype,
with `setup`'s parameters `omega=1.0, c=3/8, k=0.0`, initial state and grid. -/
noncomputable def trajectory (ind : Expr) (cs : List ℝ) : List (EVal × EVal) :=
  integrate (anharmonic_oscillator (evalExpr ind cs) 1 (3 / 8) 0) setupYinit setupX

/-- `AssessmentRunner.rmse` (`src/examples/damped_oscillator.py:54`): simulate,
compute the amplitude and frequency measures, compare each against its target
(`self.ampl = 1.0`, `self.omega = 1.0`) and NaN-replace the resulting pair.
`rep` is the configured NaN sentinel (glyph's `replace_nan` default; the spec
leaves its value as configuration). -/
noncomputable def rmse (rep : ℝ) (ind : Expr) (cs : List ℝ) : List EVal :=
  replace_nan rep
    [Numeric.rmse (some 1) (ampl_meas ((trajectory ind cs).map (fun s => s.1)) setupX setupNT),
     Numeric.rmse (some 1)
       (omega_meas ((trajectory ind cs).map (fun s => s.2)) setupX setupNT
         (ampl_meas ((trajectory ind cs).map (fun s => s.1)) setupX setupNT))]

end AssessmentRunner

/-!
## Constant optimisation (`glyph.assessment.const_opt_leastsq`)
-/

/-- The type of one abstract Levenberg–Marquardt update entry: from the residual
function, the current iterate and a coordinate index, an additive correction. -/
abbrev Upd := (List ℝ → List EVal) → List ℝ → ℕ → ℝ

/-- Modelled from the spec: `glyph.assessment.const_opt_leastsq` is not under
`src/`.  §4.4: one damped least-squares step maps the current iterate `p` to a
corrected iterate of the same length, coordinate by coordinate. -/
def lmStep (upd : Upd) (residual : List ℝ → List EVal) (p : List ℝ) : List ℝ :=
  List.map (fun i => p.getD i 0 + upd residual p i) (List.range p.length)

/-- Modelled from the spec: `glyph.assessment.const_opt_leastsq` is not under
`src/`.  §4.4: starting from the zero initial guess of length `M`, iterate the
least-squares step and return the final iterate together with the residual
vector evaluated there; never raises on non-convergence. -/
def const_opt_leastsq (upd : Upd) (n M : ℕ) (residual : List ℝ → List EVal) :
    List ℝ × List EVal :=
  ((lmStep upd residual)^[n] (List.replicate M 0),
   residual ((lmStep upd residual)^[n] (List.replicate M 0)))

theorem lmStep_length (upd : Upd) (residual : List ℝ → List EVal) (p : List ℝ) :
    (lmStep upd residual p).length = p.length := by
  simp [lmStep]

theorem lmStep_iterate_length (upd : Upd) (residual : List ℝ → List EVal) (n : ℕ)
    (p : List ℝ) : ((lmStep upd residual)^[n] p).length = p.length := by
  induction n generalizing p with
  | zero => rfl
  | succ m ih => rw [Function.iterate_succ_apply, ih, lmStep_length]

theorem const_opt_leastsq_fst_length (upd : Upd) (n M : ℕ)
    (residual : List ℝ → List EVal) : (const_opt_leastsq upd n M residual).1.length = M := by
  simp [const_opt_leastsq, lmStep_iterate_length]

theorem const_opt_leastsq_snd (upd : Upd) (n M : ℕ) (residual : List ℝ → List EVal) :
    (const_opt_leastsq upd n M residual).2 =
      residual ((lmStep upd residual)^[n] (List.replicate M 0)) := rfl

/-- The residual pair returned by `AssessmentRunner.rmse` is a two-element list
whose entries are both non-NaN (they went through `replace_nan`). -/
theorem runner_rmse_eq_pair (rep : ℝ) (ind : Expr) (cs : List ℝ) :
    ∃ a b : ℝ, AssessmentRunner.rmse rep ind cs = [some a, some b] := by
  refine ⟨(Numeric.rmse (some 1)
      (ampl_meas ((AssessmentRunner.trajectory ind cs).map (fun s => s.1)) setupX setupNT)).getD rep,
    (Numeric.rmse (some 1)
      (omega_meas ((AssessmentRunner.trajectory ind cs).map (fun s => s.2)) setupX setupNT
        (ampl_meas ((AssessmentRunner.trajectory ind cs).map (fun s => s.1)) setupX setupNT))).getD rep,
    ?_⟩
  simp [AssessmentRunner.rmse, replace_nan, replaceNanVal]

theorem runner_rmse_length (rep : ℝ) (ind : Expr) (cs : List ℝ) :
    (AssessmentRunner.rmse rep ind cs).length = 2 := by
  simp [AssessmentRunner.rmse, replace_nan]

/-!
## `measure` and `assign_fitness` (`src/examples/damped_oscillator.py:43-51`)
-/

namespace AssessmentRunner

/-- `AssessmentRunner.measure` (`src/examples/damped_oscillator.py:43`): run the
constant optimiser on `self.rmse`, assert the residual has two components, and
return `(rmse_opt[0], rmse_opt[1], len(individual), popt)`.  The failed assert
is the `none` branch. -/
noncomputable def measure (rep : ℝ) (upd : Upd) (n : ℕ) (ind : Expr) :
    Option (EVal × EVal × ℕ × List ℝ) :=
  if (const_opt_leastsq upd n (numConsts ind) (rmse rep ind)).2.length = 2 then
    some ((const_opt_leastsq upd n (numConsts ind) (rmse rep ind)).2.getD 0 none,
          (const_opt_leastsq upd n (numConsts ind) (rmse rep ind)).2.getD 1 none,
          exprSize ind,
          (const_opt_leastsq upd n (numConsts ind) (rmse rep ind)).1)
  else none

end AssessmentRunner

/-- The mutable slots of an individual written by `assign_fitness`. -/
structure IndState where
  fitnessValues : EVal × EVal × ℕ
  popt : List ℝ

/-- `AssessmentRunner.assign_fitness` (`src/examples/damped_oscillator.py:49`):
`individual.fitness.values = fitness[:-1]` and `individual.popt = fitness[-1]`. -/
def assign_fitness (s : IndState) (fit : EVal × EVal × ℕ × List ℝ) : IndState :=
  { s with fitnessValues := (fit.1, fit.2.1, fit.2.2.1), popt := fit.2.2.2 }

/-- Helper: `measure` always takes the assert's success branch and returns the
residual entries 0 and 1, the node count and the optimised constants. -/
theorem measure_eq_resid (rep : ℝ) (upd : Upd) (n : ℕ) (ind : Expr) :
    AssessmentRunner.measure rep upd n ind =
      some ((const_opt_leastsq upd n (numConsts ind) (AssessmentRunner.rmse rep ind)).2.getD 0 none,
            (const_opt_leastsq upd n (numConsts ind) (AssessmentRunner.rmse rep ind)).2.getD 1 none,
            exprSize ind,
            (const_opt_leastsq upd n (numConsts ind) (AssessmentRunner.rmse rep ind)).1) := by
  unfold AssessmentRunner.measure
  rw [if_pos]
  rw [const_opt_leastsq_snd, runner_rmse_length]

/-- C1: `measure` returns the 4-tuple
`(amplitude_error, frequency_error, size, optimized_constants)` in exactly that
order — the first two components are the optimiser's residual entries 0 and 1,
the third is the candidate's node count at evaluation time, the fourth the
optimised constants. -/
theorem measure_tuple_order_and_size (rep : ℝ) (upd : Upd) (n : ℕ) (ind : Expr) :
    AssessmentRunner.measure rep upd n ind =
      some ((const_opt_leastsq upd n (numConsts ind) (AssessmentRunner.rmse rep ind)).2.getD 0 none,
            (const_opt_leastsq upd n (numConsts ind) (AssessmentRunner.rmse rep ind)).2.getD 1 none,
            exprSize ind,
            (const_opt_leastsq upd n (numConsts ind) (AssessmentRunner.rmse rep ind)).1) :=
  measure_eq_resid rep upd n ind

/-- C10: the residual vector handed back by the constant optimiser always has
exactly two components (the NaN-replaced amplitude and frequency residuals), so
the assertion `len(rmse_opt) == 2` in `measure` never fails. -/
theorem residual_length_two (rep : ℝ) (upd : Upd) (n : ℕ) (ind : Expr) :
    (∀ cs : List ℝ, (AssessmentRunner.rmse rep ind cs).length = 2) ∧
    (const_opt_leastsq upd n (numConsts ind) (AssessmentRunner.rmse rep ind)).2.length = 2 ∧
    (AssessmentRunner.measure rep upd n ind).isSome := by
  refine ⟨runner_rmse_length rep ind, ?_, ?_⟩
  · rw [const_opt_leastsq_snd, runner_rmse_length]
  · rw [measure_eq_resid]
    rfl

/-- C3: the first two components of the fitness tuple are always non-NaN (and,
the value domain containing no infinities, finite) after NaN-replacement. -/
theorem measure_first_two_finite (rep : ℝ) (upd : Upd) (n : ℕ) (ind : Expr) :
    ∃ t : EVal × EVal × ℕ × List ℝ,
      AssessmentRunner.measure rep upd n ind = some t ∧ t.1.isSome ∧ t.2.1.isSome := by
  refine ⟨_, measure_eq_resid rep upd n ind, ?_, ?_⟩ <;>
  · rcases runner_rmse_eq_pair rep ind
      ((lmStep upd (AssessmentRunner.rmse rep ind))^[n]
        (List.replicate (numConsts ind) 0)) with ⟨a, b, hab⟩
    rw [const_opt_leastsq_snd, hab]
    rfl

/-- C5: `assign_fitness` writes exactly the first three components of the
fitness tuple to the candidate's externally visible fitness (the optimised
constants are excluded from the ranking key) and stores the last component on
the candidate's `popt` attribute. -/
theorem assign_fitness_split (s : IndState) (fit : EVal × EVal × ℕ × List ℝ) :
    (assign_fitness s fit).fitnessValues = (fit.1, fit.2.1, fit.2.2.1) ∧
    (assign_fitness s fit).popt = fit.2.2.2 := ⟨rfl, rfl⟩

/-- C6: for a candidate with `M` free constants the optimiser — and hence
`measure`'s fourth component, and the `popt` attribute written by
`assign_fitness` — yields an optimised-constants vector of length exactly `M`. -/
theorem popt_length_eq_numconsts (rep : ℝ) (upd : Upd) (n : ℕ) (ind : Expr) (s : IndState) :
    (∀ M : ℕ, ∀ residual : List ℝ → List EVal,
      (const_opt_leastsq upd n M residual).1.length = M) ∧
    ∃ t : EVal × EVal × ℕ × List ℝ,
      AssessmentRunner.measure rep upd n ind = some t ∧
      t.2.2.2.length = numConsts ind ∧
      (assign_fitness s t).popt.length = numConsts ind := by
  refine ⟨fun M residual => const_opt_leastsq_fst_length upd n M residual,
    _, measure_eq_resid rep upd n ind, ?_, ?_⟩ <;>
    simp [assign_fitness, const_opt_leastsq_fst_length]


/-!
## C2: the normalisation of the amplitude and frequency measures
-/

theorem eadd_some (a b : ℝ) : eadd (some a) (some b) = some (a + b) := rfl

theorem esub_some (a b : ℝ) : esub (some a) (some b) = some (a - b) := rfl

theorem emul_some (a b : ℝ) : emul (some a) (some b) = some (a * b) := rfl

theorem smul_some (r a : ℝ) : smul r (some a) = some (r * a) := rfl

theorem esq_some (a : ℝ) : esq (some a) = some (a * a) := rfl

theorem ediv_some (a b : ℝ) (hb : b ≠ 0) : ediv (some a) (some b) = some (a / b) := by
  simp [ediv, hb]

theorem esqrt_some (a : ℝ) (ha : 0 ≤ a) : esqrt (some a) = some (Real.sqrt a) := by
  simp [esqrt, not_lt.mpr ha]

theorem trapz_single (u : EVal) (x : ℝ) : trapz [u] [x] = some 0 := by
  rw [trapz]
  intro y1 y2 ys a b xs h1 h2
  simp at h1

theorem trapz_pair (u v : EVal) (x1 x2 : ℝ) :
    trapz [u, v] [x1, x2] = eadd (smul ((x2 - x1) / 2) (eadd u v)) (some 0) := by
  rw [trapz, trapz_single]

theorem trapz_sq_pair_calc :
    trapz ([some 2, some 2].map esq) [0, 1] = some 4 ∧
    trapz ([some 1, some 1].map esq) [0, 1] = some 1 := by
  constructor <;>
  · simp only [List.map_cons, List.map_nil, esq_some]
    rw [trapz_pair]
    simp only [eadd_some, smul_some]
    norm_num

/-- Helper: the amplitude measure at the concrete data of the counterexample. -/
theorem ampl_two_helper : ampl_meas [some 2, some 2] [0, 1] 2 = some 2 := by
  rw [ampl_meas, trapz_sq_pair_calc.1, emul_some,
    ediv_some _ _ (by norm_num : (2:ℝ) ≠ 0)]
  rw [show (4:ℝ) * 2 / 2 = 2 ^ 2 by norm_num]
  rw [esqrt_some _ (by positivity), Real.sqrt_sq (by norm_num : (0:ℝ) ≤ 2)]

/-- C2 (counterexample): the frequency measure is **not** computed as
`sqrt((2/NT) * ∫ y_1² dt)` — the code divides by `NT * ampl_**2` as well.
With `y0 = [2, 2]`, `y1 = [1, 1]`, grid `[0, 1]` and `NT = 2`, the amplitude
measure is `2`, and the code's frequency measure is `1/2` while the claimed
formula gives `1`. -/
theorem omega_norm_counterexample :
    ampl_meas [some 2, some 2] [0, 1] 2 = some 2 ∧
    omega_meas [some 1, some 1] [0, 1] 2 (some 2) ≠
      omega_specMeas [some 1, some 1] [0, 1] 2 := by
  have hampl : ampl_meas [some 2, some 2] [0, 1] 2 = some 2 := ampl_two_helper
  have homega : omega_meas [some 1, some 1] [0, 1] 2 (some 2) = some (1 / 2) := by
    rw [omega_meas, trapz_sq_pair_calc.2]
    simp only [esq_some, emul_some]
    rw [ediv_some _ _ (by norm_num : (2:ℝ) * (2 * 2) ≠ 0)]
    rw [show (1:ℝ) * 2 / (2 * (2 * 2)) = (1 / 2) ^ 2 by norm_num]
    rw [esqrt_some _ (by positivity), Real.sqrt_sq (by norm_num : (0:ℝ) ≤ 1 / 2)]
  have hspec : omega_specMeas [some 1, some 1] [0, 1] 2 = some 1 := by
    rw [omega_specMeas, trapz_sq_pair_calc.2, emul_some,
      ediv_some _ _ (by norm_num : (2:ℝ) ≠ 0)]
    rw [show (1:ℝ) * 2 / 2 = 1 by norm_num]
    rw [esqrt_some _ (by norm_num), Real.sqrt_one]
  refine ⟨hampl, ?_⟩
  rw [homega, hspec]
  simp only [ne_eq, Option.some.injEq]
  norm_num

/-- C2 (amended): over the integration window, the amplitude measure equals
`sqrt((2/NT) * ∫ y_0² dt)`, but the frequency measure is additionally
normalised by the squared amplitude measure: it equals
`sqrt((2/(NT·ampl_²)) * ∫ y_1² dt)`; each is then compared against its target
constant via the scalar RMSE. -/
theorem ampl_omega_norm_formulas (y0 y1 : List EVal) (xs : List ℝ) (NT t0 t1 a : ℝ)
    (h0 : trapz (y0.map esq) xs = some t0) (h0n : 0 ≤ t0)
    (h1 : trapz (y1.map esq) xs = some t1) (h1n : 0 ≤ t1)
    (hNT : 0 < NT) (ha : ampl_meas y0 xs NT = some a) (hane : a ≠ 0) :
    ampl_meas y0 xs NT = some (Real.sqrt ((2 / NT) * t0)) ∧
    omega_meas y1 xs NT (ampl_meas y0 xs NT) =
      some (Real.sqrt ((2 / (NT * a ^ 2)) * t1)) := by
  constructor
  · rw [ampl_meas, h0, emul_some, ediv_some _ _ (ne_of_gt hNT)]
    rw [esqrt_some _ (by positivity)]
    rw [show t0 * 2 / NT = 2 / NT * t0 by ring]
  · rw [ha, omega_meas, h1]
    simp only [esq_some, emul_some]
    have haa : 0 < a * a := mul_self_pos.mpr hane
    have hpos : 0 < NT * (a * a) := mul_pos hNT haa
    rw [ediv_some _ _ (ne_of_gt hpos)]
    rw [esqrt_some _ (div_nonneg (by linarith) (le_of_lt hpos))]
    rw [show t1 * 2 / (NT * (a * a)) = 2 / (NT * a ^ 2) * t1 by ring]

/-- Witness for `ampl_omega_norm_formulas` at the concrete data of the
counterexample. -/
theorem ampl_omega_norm_formulas_witness :
    ampl_meas [some 2, some 2] [0, 1] 2 = some (Real.sqrt ((2 / 2) * 4)) ∧
    omega_meas [some 1, some 1] [0, 1] 2 (ampl_meas [some 2, some 2] [0, 1] 2) =
      some (Real.sqrt ((2 / (2 * 2 ^ 2)) * 1)) :=
  ampl_omega_norm_formulas [some 2, some 2] [some 1, some 1] [0, 1] 2 4 1 2
    trapz_sq_pair_calc.1 (by norm_num) trapz_sq_pair_calc.2 (by norm_num)
    (by norm_num) ampl_two_helper (by norm_num)

/-!
## C4: divergent candidates receive the sentinel fitness
-/

theorem esq_none : esq none = none := rfl

theorem esqrt_none : esqrt none = none := rfl

/-- A NaN anywhere in the sampled signal poisons the trapezoidal integral. -/
theorem trapz_none (ys : List EVal) (xs : List ℝ) (hlen : ys.length = xs.length)
    (h2 : 2 ≤ ys.length) (hmem : none ∈ ys) : trapz ys xs = none := by
  induction ys generalizing xs with
  | nil => simp at hmem
  | cons y1 t ih =>
    cases t with
    | nil => simp at h2
    | cons y2 t2 =>
      cases xs with
      | nil => simp at hlen
      | cons x1 xs1 =>
        cases xs1 with
        | nil => simp at hlen
        | cons x2 xs2 =>
          rw [trapz]
          rcases List.mem_cons.mp hmem with h | hmem2
          · rw [← h, eadd_none_left, smul_none, eadd_none_left]
          rcases List.mem_cons.mp hmem2 with h | hmem3
          · rw [← h, eadd_none_right, smul_none, eadd_none_left]
          · rw [ih (x2 :: xs2) (by simpa using hlen)
              (by simp; exact List.length_pos.mpr (List.ne_nil_of_mem hmem3))
              (List.mem_cons_of_mem _ hmem3)]
            exact eadd_none_right _

theorem exists_three_cons {α : Type} (l : List α) (h : 3 ≤ l.length) :
    ∃ a b c t, l = a :: b :: c :: t := by
  rcases l with _ | ⟨a, _ | ⟨b, _ | ⟨c, t⟩⟩⟩
  · simp at h
  · simp at h
  · simp at h
  · exact ⟨a, b, c, t, rfl⟩

/-- With `k = 0` but a NaN-valued actuator, the derivative's second component is
NaN at every state: `0 * NaN = NaN`. -/
theorem dy_of_none_actuator (f : EVal × EVal → EVal) (omega c k : ℝ)
    (hf : ∀ y, f y = none) (y : EVal × EVal) :
    anharmonic_oscillator f omega c k y = (y.2, none) := by
  rw [anharmonic_oscillator, hf, smul_none, eadd_none_right]

theorem eulerSteps_stuck_none (dy : EVal × EVal → EVal × EVal)
    (hdy : ∀ y, dy y = (y.2, none)) (t : ℝ) (ts : List ℝ) :
    eulerSteps dy (none, none) t ts = ts.map (fun _ => ((none : EVal), (none : EVal))) := by
  induction ts generalizing t with
  | nil => rfl
  | cons t1 ts1 ih =>
    rw [eulerSteps, hdy]
    simp only [smul_none, eadd_none_left, List.map_cons]
    rw [ih]

/-- Trajectory of a candidate whose actuator is NaN everywhere: the first state
is the initial state, the second already has a NaN velocity, and from the third
state on everything is NaN. -/
theorem integrate_none_actuator (f : EVal × EVal → EVal) (hf : ∀ y, f y = none)
    (x0 x1 x2 : ℝ) (rest : List ℝ) :
    integrate (anharmonic_oscillator f 1 (3 / 8) 0) (some 0, some 1) (x0 :: x1 :: x2 :: rest) =
      (some 0, some 1) :: (some (0 + (x1 - x0) * 1), none) :: (none, none) ::
        rest.map (fun _ => ((none : EVal), (none : EVal))) := by
  have hdy := dy_of_none_actuator f 1 (3 / 8) 0 hf
  rw [integrate, eulerSteps, eulerSteps]
  simp only [hdy, smul_none, eadd_none_right, eadd_none_left, smul_some, eadd_some]
  rw [eulerSteps_stuck_none _ hdy]

/-- Both rows of such a trajectory contain a NaN sample. -/
theorem trajectory_none_rows (ind : Expr) (hf : ∀ (cs : List ℝ) (y : EVal × EVal),
    evalExpr ind cs y = none) (cs : List ℝ) :
    none ∈ (AssessmentRunner.trajectory ind cs).map (fun s => s.1) ∧
    none ∈ (AssessmentRunner.trajectory ind cs).map (fun s => s.2) := by
  obtain ⟨a, b, c, t, hx⟩ := exists_three_cons setupX (by rw [setupX_length]; norm_num)
  rw [AssessmentRunner.trajectory, hx]
  simp only [setupYinit]
  rw [integrate_none_actuator _ (hf cs)]
  constructor <;> simp

/-- For an everywhere-NaN actuator, the residual pair is the sentinel pair. -/
theorem runner_rmse_sentinel (rep : ℝ) (ind : Expr)
    (hf : ∀ (cs : List ℝ) (y : EVal × EVal), evalExpr ind cs y = none) (cs : List ℝ) :
    AssessmentRunner.rmse rep ind cs = [some rep, some rep] := by
  obtain ⟨hm0, hm1⟩ := trajectory_none_rows ind hf cs
  have hlen : ∀ g : EVal × EVal → EVal,
      (((AssessmentRunner.trajectory ind cs).map g).map esq).length = setupX.length := by
    intro g
    simp [AssessmentRunner.trajectory, List.length_map, integrate_length]
  have ht0 : trapz (((AssessmentRunner.trajectory ind cs).map (fun s => s.1)).map esq)
      setupX = none := by
    refine trapz_none _ _ (hlen _) (by rw [hlen _, setupX_length]; norm_num) ?_
    exact List.mem_map.mpr ⟨none, hm0, esq_none⟩
  have ht1 : trapz (((AssessmentRunner.trajectory ind cs).map (fun s => s.2)).map esq)
      setupX = none := by
    refine trapz_none _ _ (hlen _) (by rw [hlen _, setupX_length]; norm_num) ?_
    exact List.mem_map.mpr ⟨none, hm1, esq_none⟩
  have ha : ampl_meas ((AssessmentRunner.trajectory ind cs).map (fun s => s.1))
      setupX setupNT = none := by
    rw [ampl_meas, ht0, emul_none_left, ediv_none_left, esqrt_none]
  have hw : omega_meas ((AssessmentRunner.trajectory ind cs).map (fun s => s.2))
      setupX setupNT (ampl_meas ((AssessmentRunner.trajectory ind cs).map (fun s => s.1))
        setupX setupNT) = none := by
    rw [omega_meas, ht1, emul_none_left, ediv_none_left, esqrt_none]
  rw [AssessmentRunner.rmse, hw, ha]
  rfl

/-- C4: a candidate whose integration diverges (modelled: its actuator value is
NaN at every state, so with `k = 0` the Euler states and the trapezoidal
integrals are NaN-poisoned) receives the sentinel fitness
`(rep, rep, size, popt)` — no exception escapes the evaluator, which is a total
function — and evaluating a list of candidates is pointwise independent:
each entry of the mapped results depends only on that candidate. -/
theorem diverged_candidate_sentinel (rep : ℝ) (upd : Upd) (n : ℕ) (ind : Expr)
    (hf : ∀ (cs : List ℝ) (y : EVal × EVal), evalExpr ind cs y = none) :
    (∃ popt : List ℝ, AssessmentRunner.measure rep upd n ind =
      some (some rep, some rep, exprSize ind, popt)) ∧
    (∀ (l : List Expr) (i : ℕ),
      (l.map (AssessmentRunner.measure rep upd n))[i]? =
        (l[i]?).map (AssessmentRunner.measure rep upd n)) := by
  constructor
  · refine ⟨(const_opt_leastsq upd n (numConsts ind) (AssessmentRunner.rmse rep ind)).1, ?_⟩
    rw [measure_eq_resid, const_opt_leastsq_snd, runner_rmse_sentinel rep ind hf]
    rfl
  · intro l i
    simp

/-- The hall-of-fame example of a diverging actuator: `log(-exp(y_0))`, NaN at
every state. -/
def badExpr : Expr := Expr.Log (Expr.Neg (Expr.Exp Expr.Y0))

/-- A trivial optimiser update (the theorems hold for every update). -/
def upd0 : Upd := fun _ _ _ => 0

theorem badExpr_eval_none (cs : List ℝ) (y : EVal × EVal) : evalExpr badExpr cs y = none := by
  rcases y with ⟨y0, y1⟩
  cases y0 with
  | none => rfl
  | some v =>
    show elog (eneg (eexp (some v))) = none
    show elog (some (-Real.exp v)) = none
    have hc : -Real.exp v ≤ 0 := neg_nonpos.mpr (Real.exp_pos v).le
    simp [elog, hc]

/-- Witness for `diverged_candidate_sentinel` at the concrete candidate
`log(-exp(y_0))`. -/
theorem diverged_candidate_sentinel_witness :
    (∃ popt : List ℝ, AssessmentRunner.measure 5 upd0 0 badExpr =
      some (some 5, some 5, exprSize badExpr, popt)) ∧
    (∀ (l : List Expr) (i : ℕ),
      (l.map (AssessmentRunner.measure 5 upd0 0))[i]? =
        (l[i]?).map (AssessmentRunner.measure 5 upd0 0)) :=
  diverged_candidate_sentinel 5 upd0 0 badExpr badExpr_eval_none

/-!
## C7: `k = 0` and the influence of the candidate on the trajectory
-/

/-- The uncontrolled dynamics: the oscillator under `setup`'s parameters with a
zero actuator. -/
noncomputable def dyFree : EVal × EVal → EVal × EVal :=
  anharmonic_oscillator (fun _ => some 0) 1 (3 / 8) 0

/-- With `k = 0`, an actuator that stays real (non-NaN) on real states drops
out of the Euler iteration entirely: `0 * w = 0 = 0 * 0`. -/
theorem eulerSteps_k_zero (f : EVal × EVal → EVal)
    (hf : ∀ u v : ℝ, (f (some u, some v)).isSome) (xs : List ℝ) :
    ∀ t u v : ℝ,
      eulerSteps (anharmonic_oscillator f 1 (3 / 8) 0) (some u, some v) t xs =
        eulerSteps dyFree (some u, some v) t xs := by
  induction xs with
  | nil => intro t u v; rfl
  | cons t1 ts ih =>
    intro t u v
    obtain ⟨w, hw⟩ := Option.isSome_iff_exists.mp (hf u v)
    have hdy : anharmonic_oscillator f 1 (3 / 8) 0 (some u, some v) =
        dyFree (some u, some v) := by
      rw [dyFree, anharmonic_oscillator, anharmonic_oscillator, hw]
      simp only [smul_some, esub_some, eadd_some, zero_mul]
    rw [eulerSteps, eulerSteps, hdy]
    congr 1
    exact ih t1 (u + (t1 - t) * v)
      (v + (t1 - t) * (-1 ^ 2 * u - 3 / 8 * v + 0 * 0))

/-- Under `setup`'s parameters (`k = 0`), every candidate whose actuator is
real-valued on real states produces the uncontrolled trajectory. -/
theorem trajectory_k_zero (ind : Expr) (cs : List ℝ)
    (hf : ∀ u v : ℝ, (evalExpr ind cs (some u, some v)).isSome) :
    AssessmentRunner.trajectory ind cs = integrate dyFree setupYinit setupX := by
  rw [AssessmentRunner.trajectory]
  cases hxs : setupX with
  | nil => rfl
  | cons t ts =>
    rw [integrate, integrate]
    exact congrArg _ (eulerSteps_k_zero _ hf ts t 0 1)

def zeroExpr : Expr := Expr.Sub Expr.Y0 Expr.Y0

/-- C7 (counterexample): under `setup`'s parameters the trajectory is **not**
identical for any two candidates: `k = 0` does not erase the actuator's NaNs,
because `0 * NaN = NaN`.  The candidate `log(-exp(y_0))` poisons its trajectory,
while `y_0 - y_0` yields the uncontrolled one; they differ at the second grid
point. -/
theorem k_zero_noninterference_counterexample :
    AssessmentRunner.trajectory badExpr [] ≠ AssessmentRunner.trajectory zeroExpr [] := by
  intro heq
  obtain ⟨a, b, c, t, hx⟩ := exists_three_cons setupX (by rw [setupX_length]; norm_num)
  have hbad : AssessmentRunner.trajectory badExpr [] =
      (some 0, some 1) :: (some (0 + (b - a) * 1), none) :: (none, none) ::
        t.map (fun _ => ((none : EVal), (none : EVal))) := by
    rw [AssessmentRunner.trajectory, hx]
    simp only [setupYinit]
    exact integrate_none_actuator _ (badExpr_eval_none []) a b c t
  have hz : AssessmentRunner.trajectory zeroExpr [] = integrate dyFree setupYinit setupX :=
    trajectory_k_zero zeroExpr [] (fun u v => rfl)
  have h1 := congrArg (fun l => l[1]?) heq
  rw [hbad, hz, hx] at h1
  rw [show integrate dyFree setupYinit (a :: b :: c :: t) =
      setupYinit :: eulerSteps dyFree setupYinit a (b :: c :: t) from rfl] at h1
  rw [eulerSteps] at h1
  simp only [List.getElem?_cons_succ, List.getElem?_cons_zero, Option.some.injEq] at h1
  have h2 := congrArg (fun p => p.2) h1
  simp only [setupYinit, dyFree, anharmonic_oscillator, smul_some, esub_some, eadd_some] at h2
  exact Option.noConfusion h2

/-- C7 (amended): under `setup`'s parameters (`k = 0`), any two candidates whose
compiled actuators return non-NaN values at real states — evaluated with any
constant values — produce identical trajectories, identical amplitude-error and
frequency-error fitness components, and identical optimised constants; only the
size component can differ.  (A NaN-producing actuator, by contrast, still
changes the trajectory: see the counterexample.) -/
theorem k_zero_noninterference_amended (rep : ℝ) (upd : Upd) (n : ℕ) (e1 e2 : Expr)
    (cs1 cs2 : List ℝ)
    (h1 : ∀ (cs : List ℝ) (u v : ℝ), (evalExpr e1 cs (some u, some v)).isSome)
    (h2 : ∀ (cs : List ℝ) (u v : ℝ), (evalExpr e2 cs (some u, some v)).isSome) :
    AssessmentRunner.trajectory e1 cs1 = AssessmentRunner.trajectory e2 cs2 ∧
    ∃ t1 t2 : EVal × EVal × ℕ × List ℝ,
      AssessmentRunner.measure rep upd n e1 = some t1 ∧
      AssessmentRunner.measure rep upd n e2 = some t2 ∧
      t1.1 = t2.1 ∧ t1.2.1 = t2.2.1 ∧ t1.2.2.2 = t2.2.2.2 := by
  have htraj : ∀ cs cs' : List ℝ,
      AssessmentRunner.trajectory e1 cs = AssessmentRunner.trajectory e2 cs' := by
    intro cs cs'
    rw [trajectory_k_zero e1 cs (h1 cs), trajectory_k_zero e2 cs' (h2 cs')]
  have hres : AssessmentRunner.rmse rep e1 = AssessmentRunner.rmse rep e2 := by
    funext cs
    rw [AssessmentRunner.rmse, AssessmentRunner.rmse, htraj cs cs]
  refine ⟨htraj cs1 cs2, _, _, measure_eq_resid rep upd n e1,
    measure_eq_resid rep upd n e2, ?_, ?_, ?_⟩ <;>
    simp [hres, numConsts]

/-- Witness for `k_zero_noninterference_amended` at the concrete candidates
`y_0 - y_0` and `y_0 * y_1`. -/
theorem k_zero_noninterference_amended_witness :
    AssessmentRunner.trajectory zeroExpr [] =
      AssessmentRunner.trajectory (Expr.Mul Expr.Y0 Expr.Y1) [] ∧
    ∃ t1 t2 : EVal × EVal × ℕ × List ℝ,
      AssessmentRunner.measure 5 upd0 0 zeroExpr = some t1 ∧
      AssessmentRunner.measure 5 upd0 0 (Expr.Mul Expr.Y0 Expr.Y1) = some t2 ∧
      t1.1 = t2.1 ∧ t1.2.1 = t2.2.1 ∧ t1.2.2.2 = t2.2.2.2 :=
  k_zero_noninterference_amended 5 upd0 0 zeroExpr (Expr.Mul Expr.Y0 Expr.Y1) [] []
    (fun _ _ _ => rfl) (fun _ _ _ => rfl)
